import Mathlib

/-!
Verification of the appointment-status synchronization subsystem of the
Healiofy repository (client logic in `src/heal/src/pages/Profile.tsx` and the
UI guard in `src/heal/src/components/appointments/AppointmentsList.tsx`).

The TypeScript source is shallowly embedded as pure Lean functions:
* browser/network effects (axios calls) are modelled by an oracle
  `net : Endpoint → Status → NetResult` giving the outcome of one HTTP request;
* `localStorage` keys and module-level mutable variables
  (`pendingOperations`, `isProcessing`, `lastSuccessfulEndpoint`,
  `cachedAppointments` under the key `cachedAppointments`, the JWT `token`,
  and `MOCK_DATA.appointments`) are fields of an explicit state record
  `SyncState` threaded through every operation;
* ISO-8601 timestamps are represented by their epoch value (a `Nat`); the
  source only ever compares them through `new Date(t).getTime()`, which this
  representation preserves;
* a thrown JS exception is an `Except.error`; every function is total.

The fire-and-forget `syncPendingOperations()` trigger inside
`addPendingOperation` is sequenced at its call site (the cooperative
single-thread model of the source: the triggered drain touches only the
queue and `lastSuccessfulEndpoint`, neither of which is read again by the
code that runs between the trigger and the suspension point).
-/

namespace Healiofy

/-- Appointment status enum from `Profile.tsx` (`pending | confirmed | cancelled`). -/
inductive Status where
| pending
| confirmed
| cancelled
deriving DecidableEq, Repr

/-- Appointment record (`interface Appointment` in `Profile.tsx`); the
`doctorId : Doctor | string` union is represented by its string form, and the
three ISO date strings by their epoch values. -/
structure Appointment where
  _id : String
  doctorId : String
  userId : String
  date : Nat
  status : Status
  createdAt : Nat
  updatedAt : Nat
deriving DecidableEq, Repr

/-- `interface PendingOperation` in `Profile.tsx`: appointment id, desired
status, and the enqueue timestamp (epoch value of the stored ISO string). -/
structure PendingOperation where
  id : String
  status : Status
  timestamp : Nat
deriving DecidableEq, Repr

/-- Drop leading whitespace characters from a character list. -/
def dropLeadingWs : List Char → List Char
| [] => []
| c :: rest => if c.isWhitespace then dropLeadingWs rest else c :: rest

/-- JS `String.prototype.trim` (used as `id.trim()` in the source): strip
whitespace from both ends, modelled structurally so that it evaluates inside
the kernel. -/
def jsTrim (s : String) : String :=
  ⟨((dropLeadingWs ((dropLeadingWs s.data).reverse)).reverse)⟩

/-- One request shape: url and HTTP verb, as in the candidate lists of
`updateAppointmentStatus` and `syncAppointmentToDatabase`. -/
structure Endpoint where
  url : String
  method : String
deriving DecidableEq, Repr

/-- Outcome of a single axios request: a 2xx response carrying an appointment
payload (`response.data.data`), an HTTP error response with its status code
(`error.response`), or no response at all (`error.request`). -/
inductive NetResult where
| ok (apt : Appointment)
| httpErr (code : Nat)
| netErr
deriving DecidableEq, Repr

/-- Does a `NetResult` denote a success response? -/
def NetResult.isOk : NetResult → Bool
| .ok _ => true
| _ => false

/-- Network oracle: outcome of one request to an endpoint with body
`data: \x7b status \x7d`. -/
abbrev Net := Endpoint → Status → NetResult

/-- Trace of issued HTTP requests (endpoint plus the status in the body). -/
abbrev Trace := List (Endpoint × Status)

/-- The module-level mutable state of `Profile.tsx` plus the `localStorage`
keys it uses: the pending-operation queue (in-memory copy, persisted on every
mutation), the `isProcessing` drain flag, `lastSuccessfulEndpoint`, the
`cachedAppointments` key (`none` = key absent), the `token` key, and
`MOCK_DATA.appointments` as an association list. -/
structure SyncState where
  pendingOperations : List PendingOperation
  isProcessing : Bool
  lastSuccessfulEndpoint : Option Endpoint
  cachedAppointments : Option (List Appointment)
  token : Option String
  mockAppointments : List (String × Appointment)
deriving DecidableEq, Repr

/-- Queue upsert of `AppointmentSyncManager.addPendingOperation`
(lines 243-260): `findIndex` on the id, assignment at the found index,
otherwise `push`.  Replacing the first matching entry and keeping the rest is
exactly `findIndex` + index assignment; appending is `push`. -/
def upsertOp (id : String) (status : Status) (now : Nat) :
    List PendingOperation → List PendingOperation
| [] => [⟨id, status, now⟩]
| op :: rest =>
  if op.id = id then ⟨id, status, now⟩ :: rest
  else op :: upsertOp id status now rest

/-- Stable insertion of one operation into a timestamp-sorted list: the
inserted operation (which precedes the list's entries in the original queue)
goes before the first entry whose timestamp is greater than or equal to its
own, so entries with equal timestamps keep their original relative order. -/
def insertByTimestamp (op : PendingOperation) :
    List PendingOperation → List PendingOperation
| [] => [op]
| x :: xs =>
  if op.timestamp ≤ x.timestamp then op :: x :: xs
  else x :: insertByTimestamp op xs

/-- The sort in `syncPendingOperations` (line 281):
`[...ops].sort((a, b) => getTime(a) - getTime(b))` — JS `Array.prototype.sort`
is stable, i.e. it orders by timestamp, oldest first, keeping the original
relative order of entries with equal timestamps; a stable sort's output is
uniquely determined by the comparator, so this stable insertion sort computes
the same list. -/
def sortByTimestamp : List PendingOperation → List PendingOperation
| [] => []
| op :: rest => insertByTimestamp op (sortByTimestamp rest)

/-- The five endpoint shapes tried by `syncAppointmentToDatabase`
(lines 328-334). -/
def syncEndpoints (apiUrl cleanId : String) : List Endpoint :=
[ ⟨apiUrl ++ "/appointments/" ++ cleanId, "PATCH"⟩,
  ⟨apiUrl ++ "/appointments/" ++ cleanId ++ "/status", "PUT"⟩,
  ⟨apiUrl ++ "/appointments/status/" ++ cleanId, "PUT"⟩,
  ⟨apiUrl ++ "/appointment/" ++ cleanId, "PATCH"⟩,
  ⟨apiUrl ++ "/appointment/status/" ++ cleanId, "PUT"⟩ ]

/-- The ten candidate endpoint shapes of `updateAppointmentStatus`
(lines 435-451): four path-parameter forms, four query-parameter forms, two
direct forms. -/
def updateEndpoints (apiUrl cleanId : String) : List Endpoint :=
[ ⟨apiUrl ++ "/appointments/" ++ cleanId, "PATCH"⟩,
  ⟨apiUrl ++ "/appointments/status/" ++ cleanId, "PUT"⟩,
  ⟨apiUrl ++ "/appointment/" ++ cleanId, "PATCH"⟩,
  ⟨apiUrl ++ "/appointment/status/" ++ cleanId, "PUT"⟩,
  ⟨apiUrl ++ "/appointments?id=" ++ cleanId, "PATCH"⟩,
  ⟨apiUrl ++ "/appointment?id=" ++ cleanId, "PATCH"⟩,
  ⟨apiUrl ++ "/appointments/status?id=" ++ cleanId, "PUT"⟩,
  ⟨apiUrl ++ "/appointment/status?id=" ++ cleanId, "PUT"⟩,
  ⟨apiUrl ++ "/updateAppointment/" ++ cleanId, "POST"⟩,
  ⟨apiUrl ++ "/cancelAppointment/" ++ cleanId, "POST"⟩ ]

/-- The `for (const endpoint of endpoints) try ... catch ...` loop shared by
`updateAppointmentStatus` and `syncAppointmentToDatabase`: attempt each
endpoint in order, stop at the first success response; returns the success
payload with the endpoint that produced it, plus the trace of all requests
actually issued. -/
def tryEndpoints (net : Net) (status : Status) :
    List Endpoint → Option (Appointment × Endpoint) × Trace
| [] => (none, [])
| e :: rest =>
  match net e status with
  | .ok apt => (some (apt, e), [(e, status)])
  | _ =>
    let r := tryEndpoints net status rest
    (r.1, (e, status) :: r.2)

/-- `syncAppointmentToDatabase` (lines 320-365): trim the id, scan the five
sync endpoints in order; the first success stores the endpoint in
`lastSuccessfulEndpoint` and returns its payload; if all fail the last error
is thrown (`none`). -/
def syncAppointmentToDatabase (net : Net) (apiUrl : String) (st : SyncState)
    (id : String) (status : Status) : Option Appointment × SyncState × Trace :=
  let cleanId := jsTrim id
  let r := tryEndpoints net status (syncEndpoints apiUrl cleanId)
  match r.1 with
  | some (apt, e) => (some apt, { st with lastSuccessfulEndpoint := some e }, r.2)
  | none => (none, st, r.2)

/-- The `for (const operation of sortedOperations)` loop of
`syncPendingOperations` (lines 287-298): process operations strictly in
order, collect the ids of succeeded operations, `break` on the first
failure.  Returns `operationsToRemove`, the threaded state, and the request
trace. -/
def drainLoop (net : Net) (apiUrl : String) :
    List PendingOperation → SyncState → List String × SyncState × Trace
| [], st => ([], st, [])
| op :: rest, st =>
  let s := syncAppointmentToDatabase net apiUrl st op.id op.status
  match s.1 with
  | some _ =>
    let r := drainLoop net apiUrl rest s.2.1
    (op.id :: r.1, r.2.1, s.2.2 ++ r.2.2)
  | none => ([], s.2.1, s.2.2)

/-- `AppointmentSyncManager.syncPendingOperations` (lines 271-309): early
return if already processing, the queue is empty, or the browser is offline;
otherwise set `isProcessing`, drain a timestamp-sorted snapshot, filter the
succeeded ids out of the queue (only when at least one succeeded), persist,
and clear `isProcessing`. -/
def syncPendingOperations (net : Net) (apiUrl : String) (onLine : Bool)
    (st : SyncState) : SyncState × Trace :=
  if st.isProcessing || st.pendingOperations.isEmpty || !onLine then (st, [])
  else
    let sorted := sortByTimestamp st.pendingOperations
    let st1 := { st with isProcessing := true }
    let r := drainLoop net apiUrl sorted st1
    let toRemove := r.1
    let st2 := r.2.1
    let newOps :=
      if toRemove.isEmpty then st2.pendingOperations
      else st2.pendingOperations.filter (fun op => !(toRemove.contains op.id))
    ({ st2 with pendingOperations := newOps, isProcessing := false }, r.2.2)

/-- `AppointmentSyncManager.addPendingOperation` (lines 243-269): upsert the
entry for `id` with a fresh timestamp, persist, and, when online, trigger a
drain pass (sequenced here; see the module comment). -/
def addPendingOperation (net : Net) (apiUrl : String) (onLine : Bool)
    (now : Nat) (st : SyncState) (id : String) (status : Status) :
    SyncState × Trace :=
  let st1 := { st with pendingOperations := upsertOp id status now st.pendingOperations }
  if onLine then syncPendingOperations net apiUrl onLine st1 else (st1, [])

/-- Result of one `updateAppointmentStatus` call: the value returned to (or
error thrown at) the caller, the post-state, and the trace of HTTP requests
issued during the call. -/
structure CallResult where
  result : Except String Appointment
  state : SyncState
  trace : Trace
deriving Repr

/-- Is `c` one of the characters matched by the character class `[a-f0-9]`? -/
def isLowerHex (c : Char) : Bool :=
  ('a' ≤ c && c ≤ 'f') || ('0' ≤ c && c ≤ '9')

/-- Consume exactly `n` characters satisfying `isLowerHex`, returning the
remainder, or `none` if the input is shorter or a character does not match. -/
def takeHex : Nat → List Char → Option (List Char)
| 0, rest => some rest
| _ + 1, [] => none
| n + 1, c :: rest => if isLowerHex c then takeHex n rest else none

/-- Match the tail of the regex at a position just after a slash: exactly 24
lower-hex characters followed by a slash or the end of the string; returns
what remains after the whole match (the trailing slash is consumed). -/
def hex24Match (l : List Char) : Option (List Char) :=
  match takeHex 24 l with
  | none => none
  | some [] => some []
  | some (c :: rest) => if c = '/' then some rest else none

/-- Character-level engine of the JS replace in `updateAppointmentStatus`
line 416: the first (leftmost) match of a slash, 24 lower-hex characters and
a slash-or-end is replaced by a slash followed by `repl`; everything else is
kept. -/
def substAux (repl : List Char) : List Char → List Char
| [] => []
| c :: rest =>
  if c = '/' then
    match hex24Match rest with
    | some rem => ('/' :: repl) ++ rem
    | none => c :: substAux repl rest
  else c :: substAux repl rest

/-- Line 416 of `updateAppointmentStatus`: substitute the current appointment
id into the cached endpoint url by replacing the first 24-character lower-hex
path segment. -/
def substituteId (url cleanId : String) : String :=
  ⟨substAux cleanId.data url.data⟩

/-- Lookup in `MOCK_DATA.appointments` (a JS object keyed by id, modelled as
an association list). -/
def lookupMock (m : List (String × Appointment)) (k : String) : Option Appointment :=
  match m.find? (fun p => p.1 == k) with
  | some p => some p.2
  | none => none

/-- Assignment `MOCK_DATA.appointments[cleanId] = ...`: replace the binding
for `k` if present, otherwise add it. -/
def upsertMock (k : String) (a : Appointment) :
    List (String × Appointment) → List (String × Appointment)
| [] => [(k, a)]
| p :: rest => if p.1 = k then (k, a) :: rest else p :: upsertMock k a rest

/-- The placeholder appointment created at lines 504-514 when the id is in
neither the mock store nor the cache. -/
def mkDefaultMock (cleanId : String) (now : Nat) : Appointment :=
  ⟨cleanId, "", "", now, Status.pending, now, now⟩

/-- Lines 488-515 of `updateAppointmentStatus`: the value that
`MOCK_DATA.appointments[cleanId]` is seeded with before its status is
overwritten — the existing mock entry, else the cached record with that id,
else a fresh placeholder. -/
def mockSeed (mock : List (String × Appointment))
    (cache : Option (List Appointment)) (cleanId : String) (now : Nat) :
    Appointment :=
  match lookupMock mock cleanId with
  | some a => a
  | none =>
    match cache with
    | some l =>
      match l.find? (fun a => a._id == cleanId) with
      | some a => a
      | none => mkDefaultMock cleanId now
    | none => mkDefaultMock cleanId now

/-- The mock/offline fallback of `updateAppointmentStatus` (lines 481-544),
reached when the cached endpoint and all ten candidates failed: enqueue the
intent (which may trigger a drain when online), seed
`MOCK_DATA.appointments[cleanId]` from the cache or a placeholder, overwrite
its status and `updatedAt`, map the new record over the cached list when the
`cachedAppointments` key exists, and return the mock record (the
`throw lastError` at line 547 is unreachable: line 544 returns first). -/
def mockFallback (net : Net) (apiUrl : String) (onLine : Bool) (now : Nat)
    (st : SyncState) (cleanId : String) (status : Status) : CallResult :=
  let r1 := addPendingOperation net apiUrl onLine now st cleanId status
  let st1 := r1.1
  let base := mockSeed st1.mockAppointments st1.cachedAppointments cleanId now
  let updated := { base with status := status, updatedAt := now }
  let newMock := upsertMock cleanId updated st1.mockAppointments
  let newCache :=
    match st1.cachedAppointments with
    | some l => some (l.map (fun a => if a._id == cleanId then updated else a))
    | none => none
  ⟨.ok updated, { st1 with mockAppointments := newMock, cachedAppointments := newCache }, r1.2⟩

/-- The ordered scan over the ten candidate endpoints (lines 456-479): the
first success response is returned and its endpoint becomes
`lastSuccessfulEndpoint`; if every candidate fails, control falls into the
mock fallback. -/
def scanEndpoints (net : Net) (apiUrl : String) (onLine : Bool) (now : Nat)
    (st : SyncState) (cleanId : String) (status : Status) : CallResult :=
  let r0 := tryEndpoints net status (updateEndpoints apiUrl cleanId)
  match r0.1 with
  | some (apt, e) => ⟨.ok apt, { st with lastSuccessfulEndpoint := some e }, r0.2⟩
  | none =>
    let r := mockFallback net apiUrl onLine now st cleanId status
    ⟨r.result, r.state, r0.2 ++ r.trace⟩

/-- `updateAppointmentStatus` (lines 388-575).  Control flow of the source:
no stored token throws; a trimmed id that is empty or shorter than 10
characters throws (both throws lack a `response`/`request` field, so the
outer catch rethrows them as `Request failed: ...`); then, if a
`lastSuccessfulEndpoint` exists, it is attempted first with the id
substituted in, a success returning directly (without touching the stored
endpoint); on any failure the ten-candidate scan runs, and when the whole
scan fails the mock fallback produces the result.  The 404/401/403 branches
of the outer catch are unreachable for endpoint failures because the inner
loops catch every error and line 544 returns the mock record before the
`throw lastError` line. -/
def updateAppointmentStatus (net : Net) (apiUrl : String) (onLine : Bool)
    (now : Nat) (st : SyncState) (id : String) (status : Status) : CallResult :=
  match st.token with
  | none => ⟨.error "Request failed: Your session has expired. Please sign in again.", st, []⟩
  | some _ =>
    let cleanId := jsTrim id
    if cleanId = "" ∨ cleanId.length < 10 then
      ⟨.error "Request failed: Invalid appointment ID", st, []⟩
    else
      match st.lastSuccessfulEndpoint with
      | some ep =>
        let attempt : Endpoint := ⟨substituteId ep.url cleanId, ep.method⟩
        match net attempt status with
        | .ok apt => ⟨.ok apt, st, [(attempt, status)]⟩
        | _ =>
          let r := scanEndpoints net apiUrl onLine now st cleanId status
          ⟨r.result, r.state, (attempt, status) :: r.trace⟩
      | none => scanEndpoints net apiUrl onLine now st cleanId status

/-- `getUserAppointments` (lines 588-624).  The fetch outcome of the single
GET request is `fetchRes` (`some l` = success payload `l`, `none` = the call
threw).  On success the payload is cached wholesale, a drain is triggered
when online, and the payload itself is returned unchanged; on failure the raw
cached list is returned when the `cachedAppointments` key exists, otherwise
the empty list. -/
def getUserAppointments (net : Net) (apiUrl : String) (onLine : Bool)
    (fetchRes : Option (List Appointment)) (st : SyncState) :
    List Appointment × SyncState × Trace :=
  match fetchRes with
  | some l =>
    let st1 := { st with cachedAppointments := some l }
    if onLine then
      let r := syncPendingOperations net apiUrl onLine st1
      (l, r.1, r.2)
    else (l, st1, [])
  | none =>
    match st.cachedAppointments with
    | some l => (l, st, [])
    | none => ([], st, [])

/-- `AppointmentSyncManager.loadPendingOperations` (lines 222-233): read the
`pendingAppointmentOperations` key (`stored`); when the key is absent the
queue keeps its initial empty value; when `JSON.parse` (modelled by the
abstract `parse` argument) throws, the catch resets the queue to empty;
otherwise the parsed list becomes the queue. -/
def loadPendingOperations (stored : Option String)
    (parse : String → Option (List PendingOperation)) : List PendingOperation :=
  match stored with
  | none => []
  | some s =>
    match parse s with
    | some ops => ops
    | none => []

/-- `isCancellable` from `AppointmentsList.tsx` (lines 268-285), with dates
as epoch milliseconds: past appointments are not cancellable; with a positive
cancellation window the deadline is the appointment time minus the window;
otherwise any future appointment is cancellable.  The window constant comes
from a config module that is not part of the sources, so it is a
parameter. -/
def isCancellable (windowHours : Nat) (now appointmentDate : Nat) : Bool :=
  if appointmentDate < now then false
  else if 0 < windowHours then
    decide (now < appointmentDate - windowHours * 3600000)
  else true

/-- The `canCancel` guard of `AppointmentsList.tsx` (lines 564 and 778):
`appointment.status !== "cancelled" && isCancellable(appointmentDate)`. -/
def canCancel (status : Status) (windowHours : Nat) (now appointmentDate : Nat) : Bool :=
  !(status == Status.cancelled) && isCancellable windowHours now appointmentDate

/-- Does `syncAppointmentToDatabase` succeed for a queued operation?  (Its
outcome depends only on the oracle and the operation, not on the threaded
state.) -/
def syncSucceeds (net : Net) (apiUrl : String) (op : PendingOperation) : Bool :=
  (tryEndpoints net op.status (syncEndpoints apiUrl (jsTrim op.id))).1.isSome

/-- The requests issued by one `syncAppointmentToDatabase` call for a queued
operation. -/
def syncTrace (net : Net) (apiUrl : String) (op : PendingOperation) : Trace :=
  (tryEndpoints net op.status (syncEndpoints apiUrl (jsTrim op.id))).2

/-- A 24-character lower-hex appointment id used in the concrete scenarios. -/
def exId : String := "0123456789abcdef01234567"

/-- Oracle of a fully unreachable backend: no request ever gets a response. -/
def exNetFail : Net := fun _ _ => NetResult.netErr

/-- Oracle of a backend that answers every request with HTTP 401. -/
def exNet401 : Net := fun _ _ => NetResult.httpErr 401

/-- A concrete confirmed appointment with id `exId`. -/
def exAptConfirmed : Appointment :=
  ⟨exId, "doc1", "user1", 2000, Status.confirmed, 1000, 1000⟩

/-- A concrete cancelled appointment with id `exId`. -/
def exAptCancelled : Appointment :=
  ⟨exId, "doc1", "user1", 2000, Status.cancelled, 1000, 1000⟩

/-- Base concrete state for several scenarios: valid token, empty queue, no
resolved endpoint, the confirmed appointment cached, fresh mock store. -/
def exStBase : SyncState :=
  ⟨[], false, none, some [exAptConfirmed], some "tok", []⟩

/-- The C6 failing-input run itself: every request is answered with HTTP
401, and the user asks to cancel the cached confirmed appointment. -/
def exRun6 : CallResult :=
  updateAppointmentStatus exNet401 "http://api" true 100 exStBase exId Status.cancelled

/-- State for the C2 counterexample: a pending cancelled intent for `exId`
is queued while the cache still holds the confirmed record. -/
def exSt2 : SyncState :=
  ⟨[⟨exId, Status.cancelled, 0⟩], false, none, some [exAptConfirmed], some "tok", []⟩

/-- The previously resolved endpoint of the C3 scenarios: its url carries a
24-character lower-hex id segment that gets substituted, and its method is
PUT so that the substituted attempt does not coincide with the first
candidate of the scan. -/
def exEp3 : Endpoint :=
  ⟨"http://api/appointments/aaaaaaaaaaaaaaaaaaaaaaaa", "PUT"⟩

/-- The first candidate of the update scan for `exId`. -/
def exCand3 : Endpoint := ⟨"http://api/appointments/" ++ exId, "PATCH"⟩

/-- Oracle of the C3 witness scenario: only the first candidate of the scan
(PATCH on /appointments/exId) succeeds; everything else gets no response. -/
def exNet3 : Net := fun e _ =>
  if e = exCand3 then NetResult.ok exAptCancelled else NetResult.netErr

/-- Concrete state with an established resolved endpoint. -/
def exSt3 : SyncState :=
  ⟨[], false, some exEp3, some [exAptConfirmed], some "tok", []⟩

/-- The C3 counterexample run: resolved endpoint established, every request
failing at the network level. -/
def exRun3 : CallResult :=
  updateAppointmentStatus exNetFail "http://api" true 100 exSt3 exId
    Status.cancelled

/-- Concrete state whose cached record is already cancelled. -/
def exSt8 : SyncState :=
  ⟨[], false, none, some [exAptCancelled], some "tok", []⟩

/-- The C8 counterexample run: everything offline, and the subsystem is
asked to set the cancelled appointment to confirmed. -/
def exRun8 : CallResult :=
  updateAppointmentStatus exNetFail "http://api" true 100 exSt8 exId
    Status.confirmed

/-- Entries of the scenario queue: the drain sorts them oldest-first; only
the first sync endpoint for id `a` works in the C1 witness world. -/
def exOpA : PendingOperation := ⟨"a", Status.cancelled, 1⟩

/-- Second (failing) queue entry of the C1 witness scenario. -/
def exOpB : PendingOperation := ⟨"b", Status.cancelled, 2⟩

/-- Third queue entry of the C1 witness scenario, never attempted. -/
def exOpC : PendingOperation := ⟨"c", Status.cancelled, 3⟩

/-- Oracle of the C1 witness scenario: only PATCH on /appointments/a
succeeds. -/
def exNet1 : Net := fun e _ =>
  if e = ⟨"http://api/appointments/a", "PATCH"⟩ then NetResult.ok exAptConfirmed
  else NetResult.netErr

/-- Queue state of the C1 witness scenario. -/
def exSt1 : SyncState :=
  ⟨[exOpA, exOpB, exOpC], false, none, none, some "tok", []⟩

/-- One `addPendingOperation` call together with the environment it runs in
(the oracle, the `navigator.onLine` flag, and the clock value stamped on the
entry). -/
structure AddCall where
  id : String
  status : Status
  now : Nat
  net : Net
  onLine : Bool

/-- Run a sequence of `addPendingOperation` calls from a starting state. -/
def runAdds (apiUrl : String) : List AddCall → SyncState → SyncState
| [], st => st
| c :: cs, st =>
  runAdds apiUrl cs
    (addPendingOperation c.net apiUrl c.onLine c.now st c.id c.status).1

/-- The status and timestamp of the last call in the sequence for a given
id, if any call for it exists. -/
def lastAddFor : List AddCall → String → Option (Status × Nat)
| [], _ => none
| c :: cs, x =>
  match lastAddFor cs x with
  | some r => some r
  | none => if c.id = x then some (c.status, c.now) else none

/-- The C4 queue invariant: ids are deduplicated, and every entry carries
the status and timestamp of the most recent enqueue call for its id. -/
def QueueInv (calls : List AddCall) (q : List PendingOperation) : Prop :=
  (q.map (fun op => op.id)).Nodup ∧
  ∀ op ∈ q, lastAddFor calls op.id = some (op.status, op.timestamp)

/-- Empty-queue start state for the C4 witness. -/
def exSt4 : SyncState := ⟨[], false, none, none, none, []⟩

/-- Call sequence of the C4 witness: two calls for id `a` (the second must
win) around one call for id `b`. -/
def exCalls4 : List AddCall :=
[ ⟨"a", Status.confirmed, 1, exNetFail, false⟩,
  ⟨"b", Status.cancelled, 2, exNetFail, true⟩,
  ⟨"a", Status.cancelled, 3, exNetFail, false⟩ ]

/-!  Helper lemmas and claim theorems. -/

/-- If every endpoint in the list fails, the scan returns no payload and its
trace lists every endpoint in order. -/
theorem tryEndpoints_eq_none (net : Net) (status : Status) (es : List Endpoint)
    (h : ∀ e ∈ es, (net e status).isOk = false) :
    tryEndpoints net status es = (none, es.map (fun e => (e, status))) := by
  induction es with
  | nil => rfl
  | cons e rest ih =>
    have he := h e (by simp)
    cases hne : net e status with
    | ok apt => rw [hne] at he; simp [NetResult.isOk] at he
    | httpErr c =>
      simp only [tryEndpoints, hne, List.map_cons]
      rw [ih (fun x hx => h x (by simp [hx]))]
    | netErr =>
      simp only [tryEndpoints, hne, List.map_cons]
      rw [ih (fun x hx => h x (by simp [hx]))]

/-- If the endpoints before `c` fail and `c` succeeds, the scan stops at `c`,
returning its payload, and the trace lists exactly the attempts up to and
including `c`. -/
theorem tryEndpoints_eq_some (net : Net) (status : Status)
    (pre post : List Endpoint) (c : Endpoint) (apt : Appointment)
    (hpre : ∀ e ∈ pre, (net e status).isOk = false)
    (hc : net c status = .ok apt) :
    tryEndpoints net status (pre ++ c :: post) =
      (some (apt, c), (pre ++ [c]).map (fun e => (e, status))) := by
  induction pre with
  | nil => simp [tryEndpoints, hc]
  | cons e rest ih =>
    have he := hpre e (by simp)
    cases hne : net e status with
    | ok apt' => rw [hne] at he; simp [NetResult.isOk] at he
    | httpErr cd =>
      simp only [List.cons_append, tryEndpoints, hne, List.map_cons, List.append_eq]
      rw [ih (fun x hx => hpre x (by simp [hx]))]
    | netErr =>
      simp only [List.cons_append, tryEndpoints, hne, List.map_cons, List.append_eq]
      rw [ih (fun x hx => hpre x (by simp [hx]))]

/-- C7: a drain trigger received while a pass is already in progress
(`isProcessing = true`) is a no-op — it issues no network requests and
returns the state unchanged, so overlapping passes cannot issue duplicate
requests for a queued appointment. -/
theorem drain_trigger_noop_while_processing
    (net : Net) (apiUrl : String) (onLine : Bool) (st : SyncState)
    (h : st.isProcessing = true) :
    syncPendingOperations net apiUrl onLine st = (st, []) := by
  simp [syncPendingOperations, h]

/-- Witness for C7 at a concrete state with a nonempty queue. -/
theorem drain_trigger_noop_while_processing_witness :
    (⟨[⟨exId, Status.cancelled, 0⟩], true, none, none, some "tok", []⟩ :
        SyncState).isProcessing = true ∧
    syncPendingOperations exNetFail "http://api" true
        ⟨[⟨exId, Status.cancelled, 0⟩], true, none, none, some "tok", []⟩ =
      (⟨[⟨exId, Status.cancelled, 0⟩], true, none, none, some "tok", []⟩, []) :=
  ⟨rfl, drain_trigger_noop_while_processing _ _ _ _ rfl⟩

/-- C9: queue initialization from durable storage never fails: when the
stored value is absent, or when parsing it throws, the in-memory queue
starts empty. -/
theorem load_absent_or_corrupt_starts_empty
    (parse : String → Option (List PendingOperation)) (s : String)
    (h : parse s = none) :
    loadPendingOperations none parse = [] ∧
    loadPendingOperations (some s) parse = [] := by
  simp [loadPendingOperations, h]

/-- Witness for C9: the always-failing parser on a concrete corrupt string. -/
theorem load_absent_or_corrupt_starts_empty_witness :
    (fun _ : String => (none : Option (List PendingOperation))) "corrupt" = none ∧
    (loadPendingOperations none (fun _ => none) = [] ∧
     loadPendingOperations (some "corrupt") (fun _ => none) = []) :=
  ⟨rfl, load_absent_or_corrupt_starts_empty (fun _ => none) "corrupt" rfl⟩

/-- C10: a mutation call with no stored token, or with an id that trims to
the empty string or to fewer than 10 characters, throws before any endpoint
is attempted and leaves the state (queue, cache, everything) unchanged. -/
theorem guard_rejects_without_side_effects
    (net : Net) (apiUrl : String) (onLine : Bool) (now : Nat) (st : SyncState)
    (id : String) (status : Status)
    (h : st.token = none ∨ (jsTrim id = "" ∨ (jsTrim id).length < 10)) :
    ∃ msg, updateAppointmentStatus net apiUrl onLine now st id status =
      ⟨.error msg, st, []⟩ := by
  cases htok : st.token with
  | none =>
    exact ⟨"Request failed: Your session has expired. Please sign in again.",
      by simp [updateAppointmentStatus, htok]⟩
  | some tok =>
    have hid : jsTrim id = "" ∨ (jsTrim id).length < 10 := by
      rcases h with h | h
      · rw [htok] at h; cases h
      · exact h
    exact ⟨"Request failed: Invalid appointment ID",
      by simp [updateAppointmentStatus, htok, hid]⟩

/-- Under a fully failing oracle `syncAppointmentToDatabase` throws, leaves
the state unchanged, and its trace is the full five-endpoint scan. -/
theorem syncToDb_allFail (net : Net) (apiUrl : String) (st : SyncState)
    (id : String) (status : Status)
    (h : ∀ e s, (net e s).isOk = false) :
    syncAppointmentToDatabase net apiUrl st id status =
      (none, st, (syncEndpoints apiUrl (jsTrim id)).map (fun e => (e, status))) := by
  simp only [syncAppointmentToDatabase,
    tryEndpoints_eq_none net status _ (fun e _ => h e status)]

/-- Under a fully failing oracle the drain loop removes nothing and leaves
the threaded state unchanged. -/
theorem drainLoop_allFail (net : Net) (apiUrl : String)
    (ops : List PendingOperation) (st : SyncState)
    (h : ∀ e s, (net e s).isOk = false) :
    (drainLoop net apiUrl ops st).1 = [] ∧
    (drainLoop net apiUrl ops st).2.1 = st := by
  cases ops with
  | nil => exact ⟨rfl, rfl⟩
  | cons op rest =>
    simp only [drainLoop, syncToDb_allFail net apiUrl st op.id op.status h]
    exact ⟨trivial, trivial⟩

/-- A drain pass against a fully failing oracle leaves the whole state
unchanged. -/
theorem syncPending_allFail_state (net : Net) (apiUrl : String)
    (onLine : Bool) (st : SyncState)
    (h : ∀ e s, (net e s).isOk = false) :
    (syncPendingOperations net apiUrl onLine st).1 = st := by
  unfold syncPendingOperations
  by_cases hg : (st.isProcessing || st.pendingOperations.isEmpty || !onLine) = true
  · simp [hg]
  · have hproc : st.isProcessing = false := by
      cases hip : st.isProcessing
      · rfl
      · simp [hip] at hg
    obtain ⟨h1, h2⟩ :=
      drainLoop_allFail net apiUrl (sortByTimestamp st.pendingOperations)
        { st with isProcessing := true } h
    simp only [hg, if_false, h1, h2, List.isEmpty_nil, if_true]
    cases st
    simp_all

/-- The queue after an `addPendingOperation` call against a fully failing
oracle is exactly the upsert of the new intent; nothing else changes. -/
theorem addPending_allFail (net : Net) (apiUrl : String) (onLine : Bool)
    (now : Nat) (st : SyncState) (id : String) (status : Status)
    (h : ∀ e s, (net e s).isOk = false) :
    (addPendingOperation net apiUrl onLine now st id status).1 =
      { st with pendingOperations := upsertOp id status now st.pendingOperations } := by
  unfold addPendingOperation
  cases onLine with
  | false => rfl
  | true => exact syncPending_allFail_state net apiUrl true _ h

/-- Witness for C10: a present token but a 3-character id. -/
theorem guard_rejects_without_side_effects_witness :
    ((⟨[], false, none, none, some "tok", []⟩ : SyncState).token = none ∨
      (jsTrim "abc" = "" ∨ (jsTrim "abc").length < 10)) ∧
    ∃ msg, updateAppointmentStatus exNetFail "http://api" true 5
        ⟨[], false, none, none, some "tok", []⟩ "abc" Status.cancelled =
      ⟨.error msg, ⟨[], false, none, none, some "tok", []⟩, []⟩ :=
  ⟨Or.inr (by decide),
   guard_rejects_without_side_effects _ _ _ _ _ _ _ (Or.inr (by decide))⟩

/-- C2 (amended): `getUserAppointments` returns the fetched payload as-is on
a successful fetch, and the raw cached list (or the empty list) on a failed
fetch; no pending-intent overlay is applied — the returned list is
independent of the pending-operation queue. -/
theorem list_returns_fetch_or_cache_without_overlay
    (net : Net) (apiUrl : String) (onLine : Bool)
    (fetchRes : Option (List Appointment)) (st : SyncState)
    (q : List PendingOperation) :
    ((getUserAppointments net apiUrl onLine fetchRes st).1 =
      match fetchRes with
      | some l => l
      | none => st.cachedAppointments.getD []) ∧
    (getUserAppointments net apiUrl onLine fetchRes
        { st with pendingOperations := q }).1 =
      (getUserAppointments net apiUrl onLine fetchRes st).1 := by
  constructor
  · cases fetchRes with
    | some l => cases onLine <;> simp [getUserAppointments]
    | none => cases hc : st.cachedAppointments <;> simp [getUserAppointments, hc]
  · cases fetchRes with
    | some l => cases onLine <;> simp [getUserAppointments]
    | none => cases hc : st.cachedAppointments <;> simp [getUserAppointments, hc]

/-- C2 counterexample: with a pending cancelled intent for `exId` queued, a
successful fetch reporting `exId` as confirmed is returned as-is — the list
reports the appointment as `confirmed`, not as the pending `cancelled`. -/
theorem list_overlay_counterexample :
    exSt2.pendingOperations = [⟨exId, Status.cancelled, 0⟩] ∧
    exAptConfirmed._id = exId ∧
    exAptConfirmed.status = Status.confirmed ∧
    (getUserAppointments exNetFail "http://api" true
        (some [exAptConfirmed]) exSt2).1 = [exAptConfirmed] :=
  ⟨rfl, rfl, rfl, rfl⟩

/-- The appointment id carried by the mock seed is the trimmed id, provided
the mock store has no earlier entry for it. -/
theorem mockSeed_id (mock : List (String × Appointment))
    (cache : Option (List Appointment)) (cleanId : String) (now : Nat)
    (hmock : lookupMock mock cleanId = none) :
    (mockSeed mock cache cleanId now)._id = cleanId := by
  simp only [mockSeed, hmock]
  cases cache with
  | none => rfl
  | some l =>
    cases hf : l.find? (fun a => a._id == cleanId) with
    | none => simp [hf, mkDefaultMock]
    | some a =>
      have h := List.find?_some hf
      simp only [hf]
      simpa using h

/-- The freshly upserted entry is in the queue. -/
theorem self_mem_upsertOp (id : String) (status : Status) (now : Nat)
    (q : List PendingOperation) :
    (⟨id, status, now⟩ : PendingOperation) ∈ upsertOp id status now q := by
  induction q with
  | nil => simp [upsertOp]
  | cons op rest ih =>
    by_cases hop : op.id = id
    · simp [upsertOp, hop]
    · simp only [upsertOp, if_neg hop, List.mem_cons]
      exact Or.inr ih

/-- When every request fails, a valid `updateAppointmentStatus` call reduces
to the mock fallback on the trimmed id (same returned value and same
post-state, whatever the resolved-endpoint situation was). -/
theorem update_allFail_result_state (net : Net) (apiUrl : String)
    (onLine : Bool) (now : Nat) (st : SyncState) (id : String)
    (status : Status) (tok : String)
    (htok : st.token = some tok)
    (hid : ¬(jsTrim id = "" ∨ (jsTrim id).length < 10))
    (hfail : ∀ e s, (net e s).isOk = false) :
    (updateAppointmentStatus net apiUrl onLine now st id status).result =
      (mockFallback net apiUrl onLine now st (jsTrim id) status).result ∧
    (updateAppointmentStatus net apiUrl onLine now st id status).state =
      (mockFallback net apiUrl onLine now st (jsTrim id) status).state := by
  have hscan : scanEndpoints net apiUrl onLine now st (jsTrim id) status =
      ⟨(mockFallback net apiUrl onLine now st (jsTrim id) status).result,
       (mockFallback net apiUrl onLine now st (jsTrim id) status).state,
       (updateEndpoints apiUrl (jsTrim id)).map (fun e => (e, status)) ++
         (mockFallback net apiUrl onLine now st (jsTrim id) status).trace⟩ := by
    simp only [scanEndpoints,
      tryEndpoints_eq_none net status _ (fun e _ => hfail e status)]
  unfold updateAppointmentStatus
  rw [htok]
  simp only [if_neg hid]
  cases hep : st.lastSuccessfulEndpoint with
  | none =>
    rw [hscan]
    exact ⟨rfl, rfl⟩
  | some ep =>
    rw [hscan]
    cases hne : net ⟨substituteId ep.url (jsTrim id), ep.method⟩ status with
    | ok apt =>
      have hko := hfail ⟨substituteId ep.url (jsTrim id), ep.method⟩ status
      rw [hne] at hko
      simp [NetResult.isOk] at hko
    | httpErr c =>
      simp only [hne]
      exact ⟨trivial, trivial⟩
    | netErr =>
      simp only [hne]
      exact ⟨trivial, trivial⟩

/-- C5: when the resolved-endpoint attempt and every candidate (and any
request of the triggered drain) fail at the network level, a valid mutation
call raises no error: it returns a non-null appointment carrying the desired
status under the trimmed id, records the intent in the queue keyed by the
trimmed id, and optimistically rewrites every cached record with that id to
the desired status. -/
theorem offline_mutation_queued_and_optimistic
    (net : Net) (apiUrl : String) (onLine : Bool) (now : Nat) (st : SyncState)
    (id : String) (status : Status) (tok : String)
    (htok : st.token = some tok)
    (hid : ¬(jsTrim id = "" ∨ (jsTrim id).length < 10))
    (hmock : lookupMock st.mockAppointments (jsTrim id) = none)
    (hfail : ∀ e s, (net e s).isOk = false) :
    ∃ apt : Appointment,
      (updateAppointmentStatus net apiUrl onLine now st id status).result = .ok apt ∧
      apt._id = jsTrim id ∧
      apt.status = status ∧
      (updateAppointmentStatus net apiUrl onLine now st id status).state.pendingOperations =
        upsertOp (jsTrim id) status now st.pendingOperations ∧
      (⟨jsTrim id, status, now⟩ : PendingOperation) ∈
        (updateAppointmentStatus net apiUrl onLine now st id status).state.pendingOperations ∧
      ∀ l, st.cachedAppointments = some l →
        (updateAppointmentStatus net apiUrl onLine now st id status).state.cachedAppointments =
          some (l.map (fun a => if a._id == jsTrim id then apt else a)) := by
  obtain ⟨hres, hstate⟩ :=
    update_allFail_result_state net apiUrl onLine now st id status tok htok hid hfail
  have hadd := addPending_allFail net apiUrl onLine now st (jsTrim id) status hfail
  refine ⟨{ mockSeed st.mockAppointments st.cachedAppointments (jsTrim id) now with
            status := status, updatedAt := now }, ?_, ?_, rfl, ?_, ?_, ?_⟩
  · rw [hres]
    simp only [mockFallback, hadd]
  · simpa using
      mockSeed_id st.mockAppointments st.cachedAppointments (jsTrim id) now hmock
  · rw [hstate]
    simp only [mockFallback, hadd]
  · rw [hstate]
    simp only [mockFallback, hadd]
    exact self_mem_upsertOp (jsTrim id) status now st.pendingOperations
  · intro l hl
    rw [hstate]
    simp only [mockFallback, hadd, hl]

/-- Witness for C5: offline cancellation of the cached confirmed
appointment from the base state. -/
theorem offline_mutation_queued_and_optimistic_witness :
    exStBase.token = some "tok" ∧
    ∃ apt : Appointment,
      (updateAppointmentStatus exNetFail "http://api" true 100 exStBase exId
          Status.cancelled).result = .ok apt ∧
      apt._id = jsTrim exId ∧
      apt.status = Status.cancelled ∧
      (updateAppointmentStatus exNetFail "http://api" true 100 exStBase exId
          Status.cancelled).state.pendingOperations =
        upsertOp (jsTrim exId) Status.cancelled 100 exStBase.pendingOperations ∧
      (⟨jsTrim exId, Status.cancelled, 100⟩ : PendingOperation) ∈
        (updateAppointmentStatus exNetFail "http://api" true 100 exStBase exId
          Status.cancelled).state.pendingOperations ∧
      ∀ l, exStBase.cachedAppointments = some l →
        (updateAppointmentStatus exNetFail "http://api" true 100 exStBase exId
            Status.cancelled).state.cachedAppointments =
          some (l.map (fun a => if a._id == jsTrim exId then apt else a)) :=
  ⟨rfl, offline_mutation_queued_and_optimistic exNetFail "http://api" true 100
    exStBase exId Status.cancelled "tok" rfl (by decide) rfl (fun _ _ => rfl)⟩

/-- C6 (code bug): with a valid session and every endpoint answering HTTP
401, the mutation call does not fail, the operation IS queued, and the
stored token is NOT invalidated — the 401/403 branch of the outer catch
(remove token, throw session-expired) is dead code, because the inner loops
catch every error and the mock fallback returns before `throw lastError`. -/
theorem auth_failure_queued_and_token_kept :
    exRun6.state.token = some "tok" ∧
    exRun6.state.pendingOperations = [⟨exId, Status.cancelled, 100⟩] ∧
    ∃ apt, exRun6.result = Except.ok apt ∧ apt.status = Status.cancelled :=
  ⟨rfl, by decide,
   ⟨{ exAptConfirmed with status := Status.cancelled, updatedAt := 100 }, rfl, rfl⟩⟩

/-- C3 counterexample: the resolved-endpoint attempt fails with a network
error and the entire candidate scan also fails, yet the ResolvedEndpoint is
NOT discarded — after the call it is still the old endpoint, which the next
call will again attempt first. -/
theorem resolved_endpoint_not_discarded_counterexample :
    exSt3.lastSuccessfulEndpoint = some exEp3 ∧
    exNetFail ⟨substituteId exEp3.url (jsTrim exId), exEp3.method⟩
        Status.cancelled = NetResult.netErr ∧
    exRun3.trace.head? =
      some (⟨substituteId exEp3.url (jsTrim exId), exEp3.method⟩, Status.cancelled) ∧
    exRun3.trace.length = 16 ∧
    exRun3.state.lastSuccessfulEndpoint = some exEp3 :=
  ⟨rfl, rfl, by decide, by decide, by decide⟩

/-- C3 (amended): a mutation call made after a ResolvedEndpoint is
established attempts it first with the current id substituted in; when that
attempt fails with a network/endpoint error the full ordered candidate scan
runs, and the first succeeding candidate becomes the new ResolvedEndpoint
whose payload is returned; the previous ResolvedEndpoint is replaced only by
such a success — if the scan also fails entirely it is retained, not
discarded. -/
theorem resolved_endpoint_retry_and_rescan
    (net : Net) (apiUrl : String) (onLine : Bool) (now : Nat) (st : SyncState)
    (id : String) (status : Status) (tok : String) (ep : Endpoint)
    (htok : st.token = some tok)
    (hid : ¬(jsTrim id = "" ∨ (jsTrim id).length < 10))
    (hep : st.lastSuccessfulEndpoint = some ep)
    (hatt : net ⟨substituteId ep.url (jsTrim id), ep.method⟩ status = .netErr) :
    (∀ pre c post apt,
      updateEndpoints apiUrl (jsTrim id) = pre ++ c :: post →
      (∀ e ∈ pre, (net e status).isOk = false) →
      net c status = .ok apt →
      updateAppointmentStatus net apiUrl onLine now st id status =
        ⟨.ok apt, { st with lastSuccessfulEndpoint := some c },
         (⟨substituteId ep.url (jsTrim id), ep.method⟩, status) ::
           (pre ++ [c]).map (fun e => (e, status))⟩) ∧
    ((∀ e s, (net e s).isOk = false) →
      (updateAppointmentStatus net apiUrl onLine now st id
          status).state.lastSuccessfulEndpoint = some ep) := by
  constructor
  · intro pre c post apt hlist hpre hc
    have hscan := tryEndpoints_eq_some net status pre post c apt hpre hc
    unfold updateAppointmentStatus
    rw [htok]
    simp only [if_neg hid, hep]
    rw [hatt]
    simp only [scanEndpoints, hlist, hscan]
    rw [htok]
  · intro hfail
    obtain ⟨_, hstate⟩ :=
      update_allFail_result_state net apiUrl onLine now st id status tok htok hid hfail
    rw [hstate]
    simp only [mockFallback,
      addPending_allFail net apiUrl onLine now st (jsTrim id) status hfail]
    exact hep

/-- Witness for C3 at the concrete scenario: the substituted resolved
attempt (PUT) fails, the scan runs, and its first candidate (PATCH) succeeds
and becomes the new ResolvedEndpoint. -/
theorem resolved_endpoint_retry_and_rescan_witness :
    exSt3.lastSuccessfulEndpoint = some exEp3 ∧
    exNet3 ⟨substituteId exEp3.url (jsTrim exId), exEp3.method⟩
        Status.cancelled = .netErr ∧
    updateAppointmentStatus exNet3 "http://api" true 100 exSt3 exId
        Status.cancelled =
      ⟨.ok exAptCancelled,
       { exSt3 with lastSuccessfulEndpoint := some exCand3 },
       (⟨substituteId exEp3.url (jsTrim exId), exEp3.method⟩, Status.cancelled) ::
         ([] ++ [exCand3]).map (fun e => (e, Status.cancelled))⟩ :=
  ⟨rfl, by decide,
   (resolved_endpoint_retry_and_rescan exNet3 "http://api" true 100 exSt3 exId
       Status.cancelled "tok" exEp3 rfl (by decide) rfl (by decide)).1
     [] exCand3 ((updateEndpoints "http://api" exId).tail) exAptCancelled
     (by decide) (by decide) (by decide)⟩

/-- C8 counterexample: the cached record for `exId` is `cancelled`, yet the
direct-mutation path applies a further transition to it — the cache ends up
`confirmed` and the call returns the confirmed record. -/
theorem cancelled_not_terminal_counterexample :
    exSt8.cachedAppointments = some [exAptCancelled] ∧
    exAptCancelled.status = Status.cancelled ∧
    exRun8.state.cachedAppointments =
      some [{ exAptCancelled with status := Status.confirmed, updatedAt := 100 }] ∧
    ∃ apt, exRun8.result = Except.ok apt ∧ apt.status = Status.confirmed :=
  ⟨rfl, rfl, by decide,
   ⟨{ exAptCancelled with status := Status.confirmed, updatedAt := 100 }, rfl, rfl⟩⟩

/-- C8 (amended): terminality of `cancelled` is enforced only by the UI
guard — `canCancel` never offers the cancel action for an appointment whose
status is already `cancelled` — while the subsystem operations themselves
apply whatever status is requested, regardless of the current cached status
(the offline path rewrites every cached record with the target id to the
requested status). -/
theorem cancelled_terminal_only_via_ui_guard
    (net : Net) (apiUrl : String) (onLine : Bool) (now : Nat) (st : SyncState)
    (id : String) (status : Status) (tok : String)
    (htok : st.token = some tok)
    (hid : ¬(jsTrim id = "" ∨ (jsTrim id).length < 10))
    (hfail : ∀ e s, (net e s).isOk = false) :
    (∀ w n d, canCancel Status.cancelled w n d = false) ∧
    ∃ apt,
      (updateAppointmentStatus net apiUrl onLine now st id status).result =
        Except.ok apt ∧
      apt.status = status ∧
      ∀ l, st.cachedAppointments = some l →
        (updateAppointmentStatus net apiUrl onLine now st id status).state.cachedAppointments =
          some (l.map (fun a => if a._id == jsTrim id then apt else a)) := by
  constructor
  · intro w n d
    simp [canCancel]
  · obtain ⟨hres, hstate⟩ :=
      update_allFail_result_state net apiUrl onLine now st id status tok htok hid hfail
    have hadd := addPending_allFail net apiUrl onLine now st (jsTrim id) status hfail
    refine ⟨{ mockSeed st.mockAppointments st.cachedAppointments (jsTrim id) now with
              status := status, updatedAt := now }, ?_, rfl, ?_⟩
    · rw [hres]
      simp only [mockFallback, hadd]
    · intro l hl
      rw [hstate]
      simp only [mockFallback, hadd, hl]

/-- Witness for C8 at the concrete cancelled-record scenario. -/
theorem cancelled_terminal_only_via_ui_guard_witness :
    exSt8.token = some "tok" ∧
    ((∀ w n d, canCancel Status.cancelled w n d = false) ∧
     ∃ apt,
       (updateAppointmentStatus exNetFail "http://api" true 100 exSt8 exId
           Status.confirmed).result = Except.ok apt ∧
       apt.status = Status.confirmed ∧
       ∀ l, exSt8.cachedAppointments = some l →
         (updateAppointmentStatus exNetFail "http://api" true 100 exSt8 exId
             Status.confirmed).state.cachedAppointments =
           some (l.map (fun a => if a._id == jsTrim exId then apt else a))) :=
  ⟨rfl, cancelled_terminal_only_via_ui_guard exNetFail "http://api" true 100
    exSt8 exId Status.confirmed "tok" rfl (by decide) (fun _ _ => rfl)⟩

/-- Inserting one operation is a permutation of consing it. -/
theorem insertByTimestamp_perm (op : PendingOperation)
    (l : List PendingOperation) :
    List.Perm (insertByTimestamp op l) (op :: l) := by
  induction l with
  | nil => exact List.Perm.refl _
  | cons x xs ih =>
    by_cases h : op.timestamp ≤ x.timestamp
    · simp [insertByTimestamp, h]
    · simp only [insertByTimestamp, if_neg h]
      exact (ih.cons x).trans (List.Perm.swap op x xs)

/-- The drain snapshot sort is a permutation of the queue. -/
theorem sortByTimestamp_perm (l : List PendingOperation) :
    List.Perm (sortByTimestamp l) l := by
  induction l with
  | nil => exact List.Perm.refl _
  | cons op rest ih =>
    exact (insertByTimestamp_perm op (sortByTimestamp rest)).trans (ih.cons op)

/-- A failing `syncAppointmentToDatabase` call throws, leaves the state
unchanged, and issues exactly its scan trace. -/
theorem syncToDb_of_fails (net : Net) (apiUrl : String) (st : SyncState)
    (op : PendingOperation) (h : syncSucceeds net apiUrl op = false) :
    syncAppointmentToDatabase net apiUrl st op.id op.status =
      (none, st, syncTrace net apiUrl op) := by
  unfold syncSucceeds at h
  cases hx : (tryEndpoints net op.status (syncEndpoints apiUrl (jsTrim op.id))).1 with
  | none => simp only [syncAppointmentToDatabase, hx, syncTrace]
  | some p => rw [hx] at h; simp at h

/-- A succeeding `syncAppointmentToDatabase` call returns some payload,
stores some endpoint, and issues exactly its scan trace. -/
theorem syncToDb_of_succeeds (net : Net) (apiUrl : String) (st : SyncState)
    (op : PendingOperation) (h : syncSucceeds net apiUrl op = true) :
    ∃ apt e, syncAppointmentToDatabase net apiUrl st op.id op.status =
      (some apt, { st with lastSuccessfulEndpoint := some e },
       syncTrace net apiUrl op) := by
  unfold syncSucceeds at h
  cases hx : (tryEndpoints net op.status (syncEndpoints apiUrl (jsTrim op.id))).1 with
  | none => rw [hx] at h; simp at h
  | some p =>
    obtain ⟨apt, e⟩ := p
    exact ⟨apt, e, by simp only [syncAppointmentToDatabase, hx, syncTrace]⟩

/-- Loop behavior of a drain pass whose snapshot is `succ ++ f :: rest` with
every operation of `succ` succeeding and `f` failing: the removed ids are
exactly those of `succ`, the queue field of the threaded state is untouched,
and the requests issued are those for `succ` and `f` only — nothing after
the failure is attempted. -/
theorem drainLoop_spec (net : Net) (apiUrl : String)
    (succ : List PendingOperation) (f : PendingOperation)
    (rest : List PendingOperation)
    (hsucc : ∀ op ∈ succ, syncSucceeds net apiUrl op = true)
    (hfail : syncSucceeds net apiUrl f = false) :
    ∀ st : SyncState,
      (drainLoop net apiUrl (succ ++ f :: rest) st).1 =
        succ.map (fun op => op.id) ∧
      (drainLoop net apiUrl (succ ++ f :: rest) st).2.1.pendingOperations =
        st.pendingOperations ∧
      (drainLoop net apiUrl (succ ++ f :: rest) st).2.2 =
        (succ.map (syncTrace net apiUrl)).flatten ++ syncTrace net apiUrl f := by
  induction succ with
  | nil =>
    intro st
    have hstep : drainLoop net apiUrl ([] ++ f :: rest) st =
        ([], st, syncTrace net apiUrl f) := by
      simp only [List.nil_append, drainLoop,
        syncToDb_of_fails net apiUrl st f hfail]
    rw [hstep]
    exact ⟨rfl, rfl, by simp⟩
  | cons op ops ih =>
    intro st
    obtain ⟨apt, e, heq⟩ :=
      syncToDb_of_succeeds net apiUrl st op (hsucc op (by simp))
    obtain ⟨ih1, ih2, ih3⟩ :=
      ih (fun x hx => hsucc x (by simp [hx]))
        { st with lastSuccessfulEndpoint := some e }
    have hstep : drainLoop net apiUrl ((op :: ops) ++ f :: rest) st =
        (op.id :: (drainLoop net apiUrl (ops ++ f :: rest)
            { st with lastSuccessfulEndpoint := some e }).1,
         (drainLoop net apiUrl (ops ++ f :: rest)
            { st with lastSuccessfulEndpoint := some e }).2.1,
         syncTrace net apiUrl op ++ (drainLoop net apiUrl (ops ++ f :: rest)
            { st with lastSuccessfulEndpoint := some e }).2.2) := by
      simp only [List.cons_append, drainLoop, heq, List.append_eq]
    refine ⟨?_, ?_, ?_⟩
    · rw [hstep]
      show op.id :: (drainLoop net apiUrl (ops ++ f :: rest)
          { st with lastSuccessfulEndpoint := some e }).1 = _
      rw [ih1, List.map_cons]
    · rw [hstep]
      show (drainLoop net apiUrl (ops ++ f :: rest)
          { st with lastSuccessfulEndpoint := some e }).2.1.pendingOperations = _
      rw [ih2]
    · rw [hstep]
      show syncTrace net apiUrl op ++ (drainLoop net apiUrl (ops ++ f :: rest)
          { st with lastSuccessfulEndpoint := some e }).2.2 = _
      rw [ih3, List.map_cons, List.flatten_cons, List.append_assoc]

/-- Splitting a list by a predicate splits its length. -/
theorem length_filter_not_add (l : List PendingOperation)
    (p : PendingOperation → Bool) :
    (l.filter (fun a => !(p a))).length + (l.filter p).length = l.length := by
  induction l with
  | nil => rfl
  | cons x xs ih =>
    cases h : p x <;> simp [List.filter_cons, h] <;> omega

/-- C1: a drain pass over a queue whose oldest-first snapshot is
`succ ++ f :: rest`, where every operation of `succ` syncs and `f` fails,
removes exactly the operations of `succ`: the new queue is the original
minus the succeeded ids (a sublist, hence in the original relative order),
its length is N − M, the failed operation is still in it, the removed
entries are a permutation of `succ`, and the only requests issued are those
for `succ` and for `f` — nothing after the failed operation is attempted in
that pass. -/
theorem drain_removes_exactly_the_successes
    (net : Net) (apiUrl : String) (st : SyncState)
    (succ : List PendingOperation) (f : PendingOperation)
    (rest : List PendingOperation)
    (hproc : st.isProcessing = false)
    (hnodup : (st.pendingOperations.map (fun op => op.id)).Nodup)
    (hsort : sortByTimestamp st.pendingOperations = succ ++ f :: rest)
    (hsucc : ∀ op ∈ succ, syncSucceeds net apiUrl op = true)
    (hfail : syncSucceeds net apiUrl f = false) :
    (syncPendingOperations net apiUrl true st).1.pendingOperations =
      st.pendingOperations.filter
        (fun op => !((succ.map (fun o => o.id)).contains op.id)) ∧
    (syncPendingOperations net apiUrl true st).1.pendingOperations.length =
      st.pendingOperations.length - succ.length ∧
    List.Sublist (syncPendingOperations net apiUrl true st).1.pendingOperations
      st.pendingOperations ∧
    f ∈ (syncPendingOperations net apiUrl true st).1.pendingOperations ∧
    List.Perm (st.pendingOperations.filter
        (fun op => (succ.map (fun o => o.id)).contains op.id)) succ ∧
    (syncPendingOperations net apiUrl true st).2 =
      (succ.map (syncTrace net apiUrl)).flatten ++ syncTrace net apiUrl f := by
  have hperm : List.Perm (succ ++ f :: rest) st.pendingOperations := by
    rw [← hsort]
    exact sortByTimestamp_perm st.pendingOperations
  have hqne : st.pendingOperations.isEmpty = false := by
    cases hq : st.pendingOperations with
    | nil =>
      rw [hq] at hperm
      have hl := hperm.length_eq
      simp at hl
    | cons a l => rfl
  have hnods : ((succ ++ f :: rest).map (fun op => op.id)).Nodup :=
    ((hperm.map (fun op => op.id)).symm).nodup hnodup
  rw [List.map_append, List.map_cons, List.nodup_append] at hnods
  obtain ⟨hn1, hn2, hdisj⟩ := hnods
  have hfid : f.id ∉ succ.map (fun o => o.id) := by
    intro hmem
    exact hdisj hmem (List.mem_cons_self _ _)
  have hrid : ∀ op ∈ rest, op.id ∉ succ.map (fun o => o.id) := by
    intro op hop hmem
    exact hdisj hmem (List.mem_cons_of_mem _ (List.mem_map_of_mem _ hop))
  obtain ⟨hd1, hd2, hd3⟩ :=
    drainLoop_spec net apiUrl succ f rest hsucc hfail
      { st with isProcessing := true }
  have hstep : syncPendingOperations net apiUrl true st =
      ({ (drainLoop net apiUrl (succ ++ f :: rest)
            { st with isProcessing := true }).2.1 with
         pendingOperations :=
           if (succ.map (fun op => op.id)).isEmpty then st.pendingOperations
           else st.pendingOperations.filter
             (fun op => !((succ.map (fun op => op.id)).contains op.id)),
         isProcessing := false },
       (succ.map (syncTrace net apiUrl)).flatten ++ syncTrace net apiUrl f) := by
    unfold syncPendingOperations
    rw [hsort]
    simp only [hproc, hqne, Bool.not_true, Bool.or_self, Bool.or_false,
      Bool.false_or, Bool.false_eq_true, if_false, hd1, hd2, hd3]
  have h1 : (syncPendingOperations net apiUrl true st).1.pendingOperations =
      st.pendingOperations.filter
        (fun op => !((succ.map (fun o => o.id)).contains op.id)) := by
    rw [hstep]
    cases succ with
    | nil => simp
    | cons a as => simp
  have hfp : List.Perm (st.pendingOperations.filter
      (fun op => (succ.map (fun o => o.id)).contains op.id)) succ := by
    have hpf := hperm.filter (fun op => (succ.map (fun o => o.id)).contains op.id)
    have he1 : succ.filter
        (fun op => (succ.map (fun o => o.id)).contains op.id) = succ := by
      rw [List.filter_eq_self]
      intro a ha
      exact List.elem_iff.mpr (List.mem_map_of_mem _ ha)
    have he2 : (f :: rest).filter
        (fun op => (succ.map (fun o => o.id)).contains op.id) = [] := by
      rw [List.filter_eq_nil_iff]
      intro a ha hpa
      have hmem := List.elem_iff.mp hpa
      rcases List.mem_cons.mp ha with h | h
      · rw [h] at hmem
        exact hfid hmem
      · exact hrid a h hmem
    rw [List.filter_append, he1, he2, List.append_nil] at hpf
    exact hpf.symm
  have hlen : (syncPendingOperations net apiUrl true st).1.pendingOperations.length =
      st.pendingOperations.length - succ.length := by
    rw [h1]
    have hsplit := length_filter_not_add st.pendingOperations
      (fun op => (succ.map (fun o => o.id)).contains op.id)
    have hlenp := hfp.length_eq
    omega
  refine ⟨h1, hlen, ?_, ?_, hfp, ?_⟩
  · rw [h1]
    exact List.filter_sublist _
  · rw [h1]
    refine List.mem_filter.mpr ⟨?_, ?_⟩
    · exact hperm.subset (List.mem_append_right _ (List.mem_cons_self _ _))
    · simp only [Bool.not_eq_true']
      cases hc : (succ.map (fun o => o.id)).contains f.id
      · rfl
      · exact absurd (List.elem_iff.mp hc) hfid
  · rw [hstep]

/-- Witness for C1: a three-entry queue where the first operation syncs, the
second fails, and the third is never attempted. -/
theorem drain_removes_exactly_the_successes_witness :
    exSt1.isProcessing = false ∧
    (exSt1.pendingOperations.map (fun op => op.id)).Nodup ∧
    sortByTimestamp exSt1.pendingOperations = [exOpA] ++ exOpB :: [exOpC] ∧
    (∀ op ∈ [exOpA], syncSucceeds exNet1 "http://api" op = true) ∧
    syncSucceeds exNet1 "http://api" exOpB = false ∧
    ((syncPendingOperations exNet1 "http://api" true exSt1).1.pendingOperations =
       exSt1.pendingOperations.filter
         (fun op => !(([exOpA].map (fun o => o.id)).contains op.id)) ∧
     (syncPendingOperations exNet1 "http://api" true exSt1).1.pendingOperations.length =
       exSt1.pendingOperations.length - [exOpA].length ∧
     List.Sublist
       (syncPendingOperations exNet1 "http://api" true exSt1).1.pendingOperations
       exSt1.pendingOperations ∧
     exOpB ∈ (syncPendingOperations exNet1 "http://api" true exSt1).1.pendingOperations ∧
     List.Perm (exSt1.pendingOperations.filter
         (fun op => ([exOpA].map (fun o => o.id)).contains op.id)) [exOpA] ∧
     (syncPendingOperations exNet1 "http://api" true exSt1).2 =
       ([exOpA].map (syncTrace exNet1 "http://api")).flatten ++
         syncTrace exNet1 "http://api" exOpB) :=
  ⟨rfl, by decide, by decide, by decide, by decide,
   drain_removes_exactly_the_successes exNet1 "http://api" exSt1 [exOpA] exOpB
     [exOpC] rfl (by decide) (by decide) (by decide) (by decide)⟩

/-- Appending one call overrides `lastAddFor` exactly at its id. -/
theorem lastAddFor_append_single (cs : List AddCall) (c : AddCall) (x : String) :
    lastAddFor (cs ++ [c]) x =
      if c.id = x then some (c.status, c.now) else lastAddFor cs x := by
  induction cs with
  | nil => simp [lastAddFor]
  | cons d ds ih =>
    simp only [List.cons_append, lastAddFor, List.append_eq, ih]
    by_cases h : c.id = x
    · simp [h]
    · simp [h]

/-- Every id in an upserted queue is the new id or one already present. -/
theorem upsertOp_ids_mem (id : String) (s : Status) (t : Nat)
    (q : List PendingOperation) (x : String)
    (hx : x ∈ (upsertOp id s t q).map (fun op => op.id)) :
    x = id ∨ x ∈ q.map (fun op => op.id) := by
  induction q with
  | nil =>
    simp [upsertOp] at hx
    exact Or.inl hx
  | cons op rest ih =>
    by_cases h : op.id = id
    · simp only [upsertOp, if_pos h, List.map_cons, List.mem_cons] at hx
      rcases hx with h1 | h1
      · exact Or.inl h1
      · exact Or.inr (by simp [h1])
    · simp only [upsertOp, if_neg h, List.map_cons, List.mem_cons] at hx
      rcases hx with h1 | h1
      · exact Or.inr (by simp [h1])
      · rcases ih h1 with h2 | h2
        · exact Or.inl h2
        · exact Or.inr (by simp [h2])

/-- The queue upsert preserves deduplication of ids. -/
theorem upsertOp_nodup (id : String) (s : Status) (t : Nat)
    (q : List PendingOperation)
    (hq : (q.map (fun op => op.id)).Nodup) :
    ((upsertOp id s t q).map (fun op => op.id)).Nodup := by
  induction q with
  | nil => simp [upsertOp]
  | cons op rest ih =>
    rw [List.map_cons, List.nodup_cons] at hq
    obtain ⟨hop, hrest⟩ := hq
    by_cases h : op.id = id
    · simp only [upsertOp, if_pos h, List.map_cons, List.nodup_cons]
      refine ⟨?_, hrest⟩
      rw [← h]
      exact hop
    · simp only [upsertOp, if_neg h, List.map_cons, List.nodup_cons]
      refine ⟨?_, ih hrest⟩
      intro hcontra
      rcases upsertOp_ids_mem id s t rest op.id hcontra with h2 | h2
      · exact h h2
      · exact hop h2

/-- In a deduplicated queue, an entry of the upserted queue is either the
fresh entry or an untouched entry with a different id. -/
theorem mem_upsertOp_cases (id : String) (s : Status) (t : Nat)
    (q : List PendingOperation)
    (hq : (q.map (fun op => op.id)).Nodup)
    (op' : PendingOperation) (hmem : op' ∈ upsertOp id s t q) :
    op' = ⟨id, s, t⟩ ∨ (op' ∈ q ∧ op'.id ≠ id) := by
  induction q with
  | nil =>
    simp [upsertOp] at hmem
    exact Or.inl hmem
  | cons op rest ih =>
    rw [List.map_cons, List.nodup_cons] at hq
    obtain ⟨hop, hrest⟩ := hq
    by_cases h : op.id = id
    · rw [upsertOp, if_pos h] at hmem
      rcases List.mem_cons.mp hmem with h1 | h1
      · exact Or.inl h1
      · right
        refine ⟨List.mem_cons_of_mem _ h1, ?_⟩
        intro hcontra
        apply hop
        rw [h]
        rw [← hcontra]
        exact List.mem_map_of_mem _ h1
    · rw [upsertOp, if_neg h] at hmem
      rcases List.mem_cons.mp hmem with h1 | h1
      · right
        constructor
        · rw [h1]; exact List.mem_cons_self _ _
        · rw [h1]; exact h
      · rcases ih hrest h1 with h2 | h2
        · exact Or.inl h2
        · exact Or.inr ⟨List.mem_cons_of_mem _ h2.1, h2.2⟩

/-- `syncAppointmentToDatabase` never modifies the queue. -/
theorem syncToDb_queue (net : Net) (apiUrl : String) (st : SyncState)
    (id : String) (status : Status) :
    (syncAppointmentToDatabase net apiUrl st id status).2.1.pendingOperations =
      st.pendingOperations := by
  unfold syncAppointmentToDatabase
  cases hx : (tryEndpoints net status (syncEndpoints apiUrl (jsTrim id))).1 with
  | none => simp [hx]
  | some p =>
    obtain ⟨apt, e⟩ := p
    simp [hx]

/-- The drain loop itself never modifies the queue (removal happens only
afterwards, by filtering the succeeded ids). -/
theorem drainLoop_queue (net : Net) (apiUrl : String) :
    ∀ (ops : List PendingOperation) (st : SyncState),
    (drainLoop net apiUrl ops st).2.1.pendingOperations =
      st.pendingOperations := by
  intro ops
  induction ops with
  | nil => intro st; rfl
  | cons op rest ih =>
    intro st
    unfold drainLoop
    cases hx : (syncAppointmentToDatabase net apiUrl st op.id op.status).1 with
    | some apt =>
      simp only [hx]
      rw [ih]
      exact syncToDb_queue net apiUrl st op.id op.status
    | none =>
      simp only [hx]
      exact syncToDb_queue net apiUrl st op.id op.status

/-- A drain pass only ever removes entries: the resulting queue is a
sublist of the original. -/
theorem syncPending_queue_sublist (net : Net) (apiUrl : String)
    (onLine : Bool) (st : SyncState) :
    List.Sublist
      (syncPendingOperations net apiUrl onLine st).1.pendingOperations
      st.pendingOperations := by
  unfold syncPendingOperations
  by_cases hg : (st.isProcessing || st.pendingOperations.isEmpty || !onLine) = true
  · simp only [hg, if_true]
    exact List.Sublist.refl _
  · simp only [hg, if_false]
    show (if _ then
        (drainLoop net apiUrl (sortByTimestamp st.pendingOperations)
          { st with isProcessing := true }).2.1.pendingOperations
      else _).Sublist st.pendingOperations
    rw [drainLoop_queue]
    by_cases he : (drainLoop net apiUrl (sortByTimestamp st.pendingOperations)
        { st with isProcessing := true }).1.isEmpty
    · simp only [he, if_true]
      exact List.Sublist.refl _
    · simp only [he, if_false]
      exact List.filter_sublist _

/-- One full `addPendingOperation` call preserves the C4 invariant,
extending the call history by that call. -/
theorem queueInv_step (apiUrl : String) (calls : List AddCall) (c : AddCall)
    (st : SyncState) (h : QueueInv calls st.pendingOperations) :
    QueueInv (calls ++ [c])
      ((addPendingOperation c.net apiUrl c.onLine c.now st c.id
          c.status).1.pendingOperations) := by
  obtain ⟨hnd, hlast⟩ := h
  have hupsert : QueueInv (calls ++ [c])
      (upsertOp c.id c.status c.now st.pendingOperations) := by
    constructor
    · exact upsertOp_nodup _ _ _ _ hnd
    · intro op hop
      rcases mem_upsertOp_cases c.id c.status c.now st.pendingOperations hnd
          op hop with h1 | ⟨h1, h2⟩
      · rw [h1, lastAddFor_append_single, if_pos rfl]
      · rw [lastAddFor_append_single, if_neg (fun hx => h2 hx.symm)]
        exact hlast op h1
  unfold addPendingOperation
  cases honline : c.onLine with
  | false => exact hupsert
  | true =>
    have hsub := syncPending_queue_sublist c.net apiUrl true
      { st with pendingOperations := upsertOp c.id c.status c.now st.pendingOperations }
    constructor
    · exact (hsub.map (fun op => op.id)).nodup hupsert.1
    · intro op hop
      exact hupsert.2 op (hsub.subset hop)

/-- The C4 invariant is preserved by any sequence of calls. -/
theorem queueInv_runAdds (apiUrl : String) :
    ∀ (cs : List AddCall) (done : List AddCall) (st : SyncState),
    QueueInv done st.pendingOperations →
    QueueInv (done ++ cs) ((runAdds apiUrl cs st).pendingOperations) := by
  intro cs
  induction cs with
  | nil =>
    intro done st h
    simpa using h
  | cons c cs ih =>
    intro done st h
    have h1 := queueInv_step apiUrl done c st h
    have h2 := ih (done ++ [c]) _ h1
    rw [List.append_assoc] at h2
    simpa using h2

/-- C4: starting from an empty queue, after any sequence of
`addPendingOperation` calls the queue contains at most one entry per
appointment id (its id list is deduplicated), and every entry carries the
desired status and timestamp of the most recent enqueue call for its id —
enqueuing an already-queued id overwrites rather than appends. -/
theorem queue_dedup_last_intent_wins (apiUrl : String)
    (calls : List AddCall) (st : SyncState)
    (h : st.pendingOperations = []) :
    (((runAdds apiUrl calls st).pendingOperations).map (fun op => op.id)).Nodup ∧
    ∀ op ∈ (runAdds apiUrl calls st).pendingOperations,
      lastAddFor calls op.id = some (op.status, op.timestamp) := by
  have h0 : QueueInv [] st.pendingOperations := by
    rw [h]
    exact ⟨List.nodup_nil, by simp⟩
  have hmain := queueInv_runAdds apiUrl calls [] st h0
  rw [List.nil_append] at hmain
  exact hmain

/-- Witness for C4 at the concrete call sequence. -/
theorem queue_dedup_last_intent_wins_witness :
    exSt4.pendingOperations = [] ∧
    ((((runAdds "http://api" exCalls4 exSt4).pendingOperations).map
        (fun op => op.id)).Nodup ∧
     ∀ op ∈ (runAdds "http://api" exCalls4 exSt4).pendingOperations,
       lastAddFor exCalls4 op.id = some (op.status, op.timestamp)) :=
  ⟨rfl, queue_dedup_last_intent_wins "http://api" exCalls4 exSt4 rfl⟩

end Healiofy
